import Mathlib

/-!
Verification of the tlapi Go package (a torrentleech search API client).

Shallow embedding of the code in src/tlapi.go: the search request builder,
the path-segment query encoder of SearchRequest.Do, the Torrent JSON decoder
(Torrent.UnmarshalJSON), the Time decoder (Time.UnmarshalJSON) and the
pagination cursor (SearchRequest.Next / Err).

Modelling conventions:
  - Go JSON values decoded into map[string]any are modelled by JValue
    (Go json.Unmarshal yields nil, bool, float64, string, []any and
    map[string]any; float64 numbers are modelled as Rat).
  - A Go map[string]K is modelled as an association list with its lookup
    function; Go map iteration order is unspecified, the model fixes the
    key order of the object, and the keys of one JSON object are distinct.
  - Go int / int64 are modelled as Int (conversions from float64 truncate
    toward zero as in Go).
  - Errors built with fmt.Errorf are modelled by an inductive carrying the
    field name that the format string embeds.
-/

namespace Tlapi

/-- A decoded generic JSON value, as produced by Go json.Unmarshal into an
untyped any value. -/
inductive JValue where
  | null : JValue
  | jbool : Bool → JValue
  | num : Rat → JValue
  | str : String → JValue
  | arr : List JValue → JValue
  | obj : List (String × JValue) → JValue
  deriving Repr

/-- Truncation of a Go float64 toward zero, as in the Go conversions
int(f) and int64(f). -/
def jtrunc (q : Rat) : Int :=
  if 0 ≤ q then q.floor else q.ceil

/-- A calendar timestamp as parsed by Go time.Parse with the layout
"2006-01-02 15:04:05". The Go zero time is year 1, January 1, 00:00:00. -/
structure DateTime where
  year : Nat := 1
  month : Nat := 1
  day : Nat := 1
  hour : Nat := 0
  minute : Nat := 0
  second : Nat := 0
  deriving Repr, DecidableEq

/-- Numeric value of a decimal digit character. -/
def digitVal (c : Char) : Nat := c.toNat - '0'.toNat

/-- Read exactly two digits (Go getnum with fixed width, as for the layout
fields "01", "02", "04", "05"). -/
def num2 : List Char → Option (Nat × List Char)
  | a :: b :: rest =>
    if a.isDigit ∧ b.isDigit then some (10 * digitVal a + digitVal b, rest) else none
  | _ => none

/-- Read one or two digits (Go getnum without fixed width, as for the hour
layout field "15"). -/
def num1or2 : List Char → Option (Nat × List Char)
  | a :: b :: rest =>
    if a.isDigit then
      if b.isDigit then some (10 * digitVal a + digitVal b, rest)
      else some (digitVal a, b :: rest)
    else none
  | [a] => if a.isDigit then some (digitVal a, []) else none
  | [] => none

/-- Read exactly four digits (Go parsing of the layout field "2006"). -/
def num4 : List Char → Option (Nat × List Char)
  | a :: b :: c :: d :: rest =>
    if a.isDigit ∧ b.isDigit ∧ c.isDigit ∧ d.isDigit then
      some (1000 * digitVal a + 100 * digitVal b + 10 * digitVal c + digitVal d, rest)
    else none
  | _ => none

/-- Expect one literal character. -/
def expectCh (c : Char) : List Char → Option (List Char)
  | x :: rest => if x = c then some rest else none
  | [] => none

/-- Gregorian leap year rule, as used by Go time. -/
def isLeap (y : Nat) : Bool := y % 4 = 0 ∧ (y % 100 ≠ 0 ∨ y % 400 = 0)

/-- Number of days in a month, as used by Go time.Parse to validate the day. -/
def daysIn (mo y : Nat) : Nat :=
  if mo = 2 then (if isLeap y then 29 else 28)
  else if mo = 4 ∨ mo = 6 ∨ mo = 9 ∨ mo = 11 then 30
  else 31

/-- Go time.Parse with the fixed layout timefmt = "2006-01-02 15:04:05":
four digit year, literal dash, two digit month, literal dash, two digit day,
literal space, one or two digit hour, literal colon, two digit minute,
literal colon, two digit second, end of input, with the range checks
performed by Go time.Parse. -/
def parseTimefmt (s : String) : Option DateTime := do
  let (y, r) ← num4 s.data
  let r ← expectCh '-' r
  let (mo, r) ← num2 r
  let r ← expectCh '-' r
  let (d, r) ← num2 r
  let r ← expectCh ' ' r
  let (h, r) ← num1or2 r
  let r ← expectCh ':' r
  let (mi, r) ← num2 r
  let r ← expectCh ':' r
  let (sec, r) ← num2 r
  if r = [] ∧ 1 ≤ mo ∧ mo ≤ 12 ∧ 1 ≤ d ∧ d ≤ daysIn mo y ∧ h ≤ 23 ∧ mi ≤ 59 ∧ sec ≤ 59 then
    some ⟨y, mo, d, h, mi, sec⟩
  else none

/-- Digits of a nonempty all-digit character list, as a number. -/
def digitsVal (cs : List Char) : Option Nat :=
  if cs ≠ [] ∧ cs.all Char.isDigit then
    some (cs.foldl (fun a c => 10 * a + digitVal c) 0)
  else none

/-- Go strconv.ParseInt (base 10, 64 bit), also strconv.Atoi on a 64 bit
platform: optional sign, at least one digit, 64 bit range check. -/
def goParseInt64 (s : String) : Option Int :=
  let core : Bool × List Char :=
    match s.data with
    | '+' :: t => (false, t)
    | '-' :: t => (true, t)
    | t => (false, t)
  match digitsVal core.2 with
  | none => none
  | some n =>
    let v : Int := if core.1 then -(n : Int) else (n : Int)
    if -(2 ^ 63) ≤ v ∧ v ≤ 2 ^ 63 - 1 then some v else none

/-- A decoded torrent record, mirroring the Go struct Torrent of
src/tlapi.go with the Go zero values as defaults. -/
structure Torrent where
  AddedTimestamp : DateTime := {}
  CategoryID : Int := 0
  Completed : Int := 0
  DownloadMultiplier : Int := 0
  ID : Int := 0
  Filename : String := ""
  Genres : List String := []
  IgdbID : String := ""
  AnimeID : String := ""
  ImdbID : String := ""
  Leechers : Int := 0
  Name : String := ""
  New : Bool := false
  NumComments : Int := 0
  Rating : Rat := 0
  Seeders : Int := 0
  Size : Int := 0
  Tags : List String := []
  TvmazeID : String := ""
  Uploader : String := ""
  CommentsDisabled : Int := 0
  deriving Repr, DecidableEq

/-- Decoding errors of Torrent.UnmarshalJSON. Each fmt.Errorf format string
of the source embeds the offending field name; the constructors carry it. -/
inductive DecodeErr where
  | invalidType : String → DecodeErr
  | invalidValue : String → DecodeErr
  | invalidElemType : String → Nat → DecodeErr
  | unknownField : String → DecodeErr
  deriving Repr, DecidableEq

/-- The field name that a decoding error names. -/
def DecodeErr.key : DecodeErr → String
  | .invalidType k => k
  | .invalidValue k => k
  | .invalidElemType k _ => k
  | .unknownField k => k

/-- Collect the strings of a JSON array for the tags field; a non string
element at position i is the error of the source (invalid tags value type,
pos i). -/
def collectStrings : List JValue → Nat → Except DecodeErr (List String)
  | [], _ => .ok []
  | .str s :: rest, i =>
    match collectStrings rest (i + 1) with
    | .ok ss => .ok (s :: ss)
    | .error e => .error e
  | _ :: _, i => .error (.invalidElemType "tags" i)

/-- One case of the key switch of Torrent.UnmarshalJSON: for a key and its
JSON value, the update it performs on the torrent being built, or the error.
Whether a key decodes, and the error it produces, do not depend on the
torrent accumulator. -/
def decodeField1 (k : String) (v : JValue) : Except DecodeErr (Torrent → Torrent) :=
  if k = "addedTimestamp" then
    match v with
    | .str s =>
      match parseTimefmt s with
      | some dt => .ok (fun t => { t with AddedTimestamp := dt })
      | none => .error (.invalidValue k)
    | _ => .error (.invalidType k)
  else if k = "categoryID" then
    match v with
    | .num q => .ok (fun t => { t with CategoryID := jtrunc q })
    | _ => .error (.invalidType k)
  else if k = "completed" then
    match v with
    | .num q => .ok (fun t => { t with Completed := jtrunc q })
    | _ => .error (.invalidType k)
  else if k = "download_multiplier" then
    match v with
    | .num q => .ok (fun t => { t with DownloadMultiplier := jtrunc q })
    | _ => .error (.invalidType k)
  else if k = "commentsDisabled" then
    match v with
    | .num q => .ok (fun t => { t with CommentsDisabled := jtrunc q })
    | _ => .error (.invalidType k)
  else if k = "fid" then
    match v with
    | .str s =>
      match goParseInt64 s with
      | some i => .ok (fun t => { t with ID := i })
      | none => .error (.invalidValue k)
    | _ => .error (.invalidType k)
  else if k = "filename" then
    match v with
    | .str s => .ok (fun t => { t with Filename := s })
    | _ => .error (.invalidType k)
  else if k = "genres" then
    match v with
    | .str s => .ok (fun t => { t with Genres := s.splitOn ", " })
    | _ => .error (.invalidType k)
  else if k = "igdbID" then
    match v with
    | .str s => .ok (fun t => { t with IgdbID := s })
    | .num q => .ok (fun t => { t with IgdbID := toString (jtrunc q) })
    | _ => .error (.invalidType k)
  else if k = "animeID" then
    match v with
    | .str s => .ok (fun t => { t with AnimeID := s })
    | .num q => .ok (fun t => { t with AnimeID := toString (jtrunc q) })
    | _ => .error (.invalidType k)
  else if k = "imdbID" then
    match v with
    | .str s => .ok (fun t => { t with ImdbID := s })
    | _ => .error (.invalidType k)
  else if k = "leechers" then
    match v with
    | .num q => .ok (fun t => { t with Leechers := jtrunc q })
    | _ => .error (.invalidType k)
  else if k = "name" then
    match v with
    | .str s => .ok (fun t => { t with Name := s })
    | _ => .error (.invalidType k)
  else if k = "new" then
    match v with
    | .jbool b => .ok (fun t => { t with New := b })
    | _ => .error (.invalidType k)
  else if k = "numComments" then
    match v with
    | .num q => .ok (fun t => { t with NumComments := jtrunc q })
    | _ => .error (.invalidType k)
  else if k = "rating" then
    match v with
    | .num q => .ok (fun t => { t with Rating := q })
    | _ => .error (.invalidType k)
  else if k = "seeders" then
    match v with
    | .num q => .ok (fun t => { t with Seeders := jtrunc q })
    | _ => .error (.invalidType k)
  else if k = "size" then
    match v with
    | .num q => .ok (fun t => { t with Size := jtrunc q })
    | _ => .error (.invalidType k)
  else if k = "tags" then
    match v with
    | .str _ => .ok (fun t => t)
    | .arr xs =>
      match collectStrings xs 0 with
      | .ok ss => .ok (fun t => { t with Tags := t.Tags ++ ss })
      | .error e => .error e
    | _ => .error (.invalidType k)
  else if k = "tvmazeID" then
    match v with
    | .str s => .ok (fun t => { t with TvmazeID := s })
    | _ => .error (.invalidType k)
  else if k = "uploader" then
    match v with
    | .str s => .ok (fun t => { t with Uploader := s })
    | _ => .error (.invalidType k)
  else .error (.unknownField k)

/-- The key loop of Torrent.UnmarshalJSON, threading the torrent being
built through the per key updates and stopping at the first error. -/
def decodeFields (t : Torrent) : List (String × JValue) → Except DecodeErr Torrent
  | [] => .ok t
  | (k, v) :: rest =>
    match decodeField1 k v with
    | .ok f => decodeFields (f t) rest
    | .error e => .error e

/-- Torrent.UnmarshalJSON on a decoded JSON object: start from the zero
Torrent and apply every key of the object. -/
def decodeTorrent (m : List (String × JValue)) : Except DecodeErr Torrent :=
  decodeFields {} m

/-- Time.UnmarshalJSON of src/tlapi.go on the raw bytes of the JSON value:
the literal empty quoted string leaves the zero time (result none); any
other input is stripped of its first and last byte and parsed as 64 bit
epoch seconds. -/
def timeUnmarshal (buf : String) : Except String (Option Int) :=
  if buf = "\"\"" then .ok none
  else
    match goParseInt64 ((buf.drop 1).dropRight 1) with
    | some i => .ok (some i)
    | none => .error "invalid integer"

/-- Lookup in an association list modelling a Go map (keys are distinct, so
the first match is the only match). -/
def alookup (m : List (String × String)) (k : String) : Option String :=
  (m.find? (fun p => p.1 = k)).map Prod.snd

/-- Assignment m[k] = v in an association list modelling a Go map: any
binding of k is replaced. -/
def aset (m : List (String × String)) (k v : String) : List (String × String) :=
  m.filter (fun p => p.1 ≠ k) ++ [(k, v)]

/-- The exported filter fields of the Go struct SearchRequest. The Go map
Facets is modelled as an optional association list: none is the nil map,
some of the empty list is a non nil empty map. The unexported cursor fields
live in CState below. -/
structure SearchRequest where
  Categories : List Int := []
  Facets : Option (List (String × String)) := none
  Query : List String := []
  Added : String := ""
  OrderBy : String := ""
  Order : String := ""
  Page : Int := 0
  deriving Repr, DecidableEq

/-- The Search constructor: query terms, page 1 (the unexported fields are
initialized in searchInit below). -/
def searchReq (query : List String) : SearchRequest :=
  { Query := query, Page := 1 }

/-!
Builder methods. In src/tlapi.go every With method has a POINTER receiver:
it assigns the field on the receiver in place and returns the receiver, so
after the call the caller's request holds exactly the returned value (the
returned pointer aliases the receiver). Each function below is that shared
post call value.
-/

/-- WithCategories: req.Categories = categories; return req. -/
def withCategories (r : SearchRequest) (categories : List Int) : SearchRequest :=
  { r with Categories := categories }

/-- Consecutive pairs of the variadic facets list, as taken by the index
loop of WithFacets (i = 0, 2, 4, ...; facets[i], facets[i+1]). -/
def pairsOf : List String → List (String × String)
  | a :: b :: t => (a, b) :: pairsOf t
  | _ => []

/-- WithFacets: panics (modelled as Except.error with the panic message)
when the argument count is odd, otherwise stores each consecutive pair in
the facet map, creating the map when it is nil. -/
def withFacets (r : SearchRequest) (facets : List String) : Except String SearchRequest :=
  if facets.length % 2 ≠ 0 then .error "facets must be a multiple of 2"
  else
    let fm := (pairsOf facets).foldl (fun m p => aset m p.1 p.2) (r.Facets.getD [])
    .ok { r with Facets := some fm }

/-- WithFacet: store one facet, joining the values with a comma. -/
def withFacet (r : SearchRequest) (name : String) (values : List String) : SearchRequest :=
  { r with Facets := some (aset (r.Facets.getD []) name (String.intercalate "," values)) }

/-- WithPage: req.Page = page; return req. -/
def withPage (r : SearchRequest) (page : Int) : SearchRequest :=
  { r with Page := page }

/-- WithAdded: req.Added = added; return req. -/
def withAdded (r : SearchRequest) (added : String) : SearchRequest :=
  { r with Added := added }

/-- WithOrderBy: req.OrderBy = orderBy; return req. -/
def withOrderBy (r : SearchRequest) (orderBy : String) : SearchRequest :=
  { r with OrderBy := orderBy }

/-- WithOrder: req.Order = order; return req. -/
def withOrder (r : SearchRequest) (order : String) : SearchRequest :=
  { r with Order := order }

/-!
The query encoder of SearchRequest.Do.
-/

/-- The escaper of src/tlapi.go: strings.NewReplacer with the three single
byte patterns bracket open to %255B, space to %2520, bracket close to
%255D; with single byte patterns the Go replacer substitutes per byte. -/
def escaper (s : String) : String :=
  String.join (s.data.map (fun c =>
    if c = '[' then "%255B"
    else if c = ' ' then "%2520"
    else if c = ']' then "%255D"
    else String.singleton c))

/-- UTF-8 bytes of a character, for the path escaper. -/
def utf8Bytes (c : Char) : List Nat :=
  let n := c.toNat
  if n < 0x80 then [n]
  else if n < 0x800 then [0xC0 + n / 64, 0x80 + n % 64]
  else if n < 0x10000 then [0xE0 + n / 4096, 0x80 + (n / 64) % 64, 0x80 + n % 64]
  else [0xF0 + n / 0x40000, 0x80 + (n / 4096) % 64, 0x80 + (n / 64) % 64, 0x80 + n % 64]

/-- Whether Go url.PathEscape escapes a byte (net/url shouldEscape in path
segment mode): letters, digits, the unreserved marks and a fixed set of
sub delimiters pass through, everything else is percent encoded. -/
def shouldEscapeByte (b : Nat) : Bool :=
  let c := Char.ofNat b
  ¬(c.isAlpha ∨ c.isDigit ∨
    c = '-' ∨ c = '_' ∨ c = '.' ∨ c = '~' ∨
    c = '$' ∨ c = '&' ∨ c = '+' ∨ c = ':' ∨ c = '=' ∨ c = '@')

/-- Upper case hex digit. -/
def hexDigit (n : Nat) : Char :=
  if n < 10 then Char.ofNat ('0'.toNat + n) else Char.ofNat ('A'.toNat + (n - 10))

/-- Percent encoding of one byte. -/
def pctByte (b : Nat) : String :=
  String.mk ['%', hexDigit (b / 16), hexDigit (b % 16)]

/-- Go url.PathEscape. -/
def pathEscape (s : String) : String :=
  String.join ((s.data.flatMap utf8Bytes).map (fun b =>
    if shouldEscapeByte b then pctByte b else String.singleton (Char.ofNat b)))

/-- The fixed recognized facet names, in the order the encoder emits them. -/
def facetNames : List String := ["added", "name", "seeders", "size", "tags"]

/-- The facets segment body of SearchRequest.Do: for each recognized facet
name in the fixed order, when present in the map, name %3A escaped value;
joined with underscores. -/
def facetSeg (fm : List (String × String)) : String :=
  String.intercalate "_" (facetNames.filterMap (fun k =>
    (alookup fm k).map (fun s => k ++ "%3A" ++ escaper s)))

/-- The path built by SearchRequest.Do (the pure query string q appended to
the fixed endpoint): successive conditional appends in source order. -/
def encodePath (r : SearchRequest) : String :=
  (if r.Categories.length ≠ 0 then
    "/categories/" ++ String.intercalate "," (r.Categories.map toString) else "")
  ++ (match r.Facets with
      | some fm => "/facets/" ++ facetSeg fm
      | none => "")
  ++ (if r.Query.length ≠ 0 then
    "/query/" ++ pathEscape (String.intercalate " " r.Query) else "")
  ++ (if r.Added ≠ "" then "/added/" ++ r.Added else "")
  ++ (if r.OrderBy ≠ "" then "/orderby/" ++ r.OrderBy else "")
  ++ (if r.Order ≠ "" then "/order/" ++ r.Order else "")
  ++ (if r.Page ≠ 0 then "/page/" ++ toString r.Page else "")

/-- Render an optional segment: present segments appear, absent ones vanish. -/
def optSeg : Option String → String
  | some s => s
  | none => ""

/-- Categories segment as the spec describes it: omitted when the category
list is empty. -/
def segCategories (r : SearchRequest) : Option String :=
  if r.Categories = [] then none
  else some ("/categories/" ++ String.intercalate "," (r.Categories.map toString))

/-- Facets segment as claim C4 words it: omitted whenever the facet MAPPING
is empty (nil or present but empty). -/
def segFacetsClaim (r : SearchRequest) : Option String :=
  if r.Facets.getD [] = [] then none
  else some ("/facets/" ++ facetSeg (r.Facets.getD []))

/-- Facets segment as the code has it: omitted exactly when the facet map
is nil; a present but empty map still emits the segment. -/
def segFacetsNil (r : SearchRequest) : Option String :=
  match r.Facets with
  | some fm => some ("/facets/" ++ facetSeg fm)
  | none => none

/-- Query segment: omitted when the query term list is empty. -/
def segQuery (r : SearchRequest) : Option String :=
  if r.Query = [] then none
  else some ("/query/" ++ pathEscape (String.intercalate " " r.Query))

/-- Added segment: omitted when the added string is empty. -/
def segAdded (r : SearchRequest) : Option String :=
  if r.Added = "" then none else some ("/added/" ++ r.Added)

/-- OrderBy segment: omitted when the orderBy string is empty. -/
def segOrderBy (r : SearchRequest) : Option String :=
  if r.OrderBy = "" then none else some ("/orderby/" ++ r.OrderBy)

/-- Order segment: omitted when the order string is empty. -/
def segOrder (r : SearchRequest) : Option String :=
  if r.Order = "" then none else some ("/order/" ++ r.Order)

/-- Page segment: omitted when the page is zero. -/
def segPage (r : SearchRequest) : Option String :=
  if r.Page = 0 then none else some ("/page/" ++ toString r.Page)

/-- The path as claim C4 describes it: the seven segments in the fixed
order, each omitted entirely when its underlying value is empty or zero,
including an empty facet mapping. -/
def specPathClaim (r : SearchRequest) : String :=
  optSeg (segCategories r) ++ optSeg (segFacetsClaim r) ++ optSeg (segQuery r)
  ++ optSeg (segAdded r) ++ optSeg (segOrderBy r) ++ optSeg (segOrder r)
  ++ optSeg (segPage r)

/-- The path with the facets omission rule the code actually uses (nil map,
not empty map). -/
def specPathNil (r : SearchRequest) : String :=
  optSeg (segCategories r) ++ optSeg (segFacetsNil r) ++ optSeg (segQuery r)
  ++ optSeg (segAdded r) ++ optSeg (segOrderBy r) ++ optSeg (segOrder r)
  ++ optSeg (segPage r)

/-!
The pagination cursor of SearchRequest.Next, Cur and Err.
-/

/-- The fields of the Go SearchResponse that the cursor logic reads. -/
structure SearchResponse where
  NumFound : Int := 0
  PerPage : Int := 0
  TorrentList : List Torrent := []
  deriving Repr

/-- The cursor state: the request (whose Page field the pointer receiver
WithPage mutates inside Next) and the unexported fields p, i, res, err of
the Go SearchRequest. The delay d only sleeps and is not modelled; the
mutex serializes Next calls, so one step relation captures a call. -/
structure CState where
  req : SearchRequest
  p : Int
  i : Int
  res : Option SearchResponse
  err : Option String
  deriving Repr

/-- The state Search(query...) builds: Page 1, p = -1, i = -1. -/
def searchInit (query : List String) : CState :=
  { req := searchReq query, p := -1, i := -1, res := none, err := none }

/-- The page number a fetch issued from state s would request:
page + req.p after the increment of req.p. -/
def fetchPage (s : CState) : Int :=
  (if s.req.Page = 0 then 1 else s.req.Page) + (s.p + 1)

/-- One call of SearchRequest.Next against a fetch oracle f (modelling
WithPage(page).Do: the oracle maps the requested page number to a response
or an error). Result: the returned boolean, the new state, and the number
of fetches issued (0 or 1). The call req.WithPage(page + req.p) mutates
req.Page through the pointer receiver before the fetch. -/
def nextStep (f : Int → Except String SearchResponse) (s : CState) :
    Bool × CState × Nat :=
  let page : Int := if s.req.Page = 0 then 1 else s.req.Page
  if s.err.isSome then (false, s, 0)
  else
    let doFetch : Bool × CState × Nat :=
      let p' := s.p + 1
      let newPage := page + p'
      let req' := { s.req with Page := newPage }
      match f newPage with
      | .ok r =>
        (decide (0 < r.TorrentList.length),
         { req := req', p := p', i := 0, res := some r, err := none }, 1)
      | .error e =>
        (false, { req := req', p := p', i := 0, res := none, err := some e }, 1)
    match s.res with
    | some r =>
      if s.i < (r.TorrentList.length : Int) - 1 then
        (true, { s with i := s.i + 1 }, 0)
      else if r.NumFound ≤ (page + s.p) * r.PerPage then
        (false, s, 0)
      else doFetch
    | none => doFetch

/-- Iterate Next n times, collecting the returned booleans and the total
number of fetches issued. -/
def runNext (f : Int → Except String SearchResponse) : Nat → CState →
    CState × List Bool × Nat
  | 0, s => (s, [], 0)
  | n + 1, s =>
    let step := nextStep f s
    let rest := runNext f n step.2.1
    (rest.1, step.1 :: rest.2.1, step.2.2 + rest.2.2)

/-!
Auxiliary notions for the claims about the decoder.
-/

/-- The known field keys of the Torrent decoder (the cases of the switch in
Torrent.UnmarshalJSON). -/
def knownKeys : List String :=
  ["addedTimestamp", "categoryID", "completed", "download_multiplier",
   "commentsDisabled", "fid", "filename", "genres", "igdbID", "animeID",
   "imdbID", "leechers", "name", "new", "numComments", "rating", "seeders",
   "size", "tags", "tvmazeID", "uploader"]

/-- Whether a key is a known Torrent field. -/
def knownKey (k : String) : Bool := decide (k ∈ knownKeys)

/-- Whether a JSON value is a string. -/
def JValue.isStr : JValue → Bool
  | .str _ => true
  | _ => false

/-- Whether a JSON value is a number. -/
def JValue.isNum : JValue → Bool
  | .num _ => true
  | _ => false

/-- Whether a JSON value is a boolean. -/
def JValue.isBool : JValue → Bool
  | .jbool _ => true
  | _ => false

/-- Whether a JSON value is an array. -/
def JValue.isArr : JValue → Bool
  | .arr _ => true
  | _ => false

/-- The documented wire shapes of each known field (spec section 3 and the
type switch of the decoder): one or two JSON types per field. -/
def typeOK (k : String) (v : JValue) : Bool :=
  if k = "addedTimestamp" ∨ k = "fid" ∨ k = "filename" ∨ k = "genres" ∨
     k = "imdbID" ∨ k = "name" ∨ k = "tvmazeID" ∨ k = "uploader" then v.isStr
  else if k = "categoryID" ∨ k = "completed" ∨ k = "download_multiplier" ∨
     k = "commentsDisabled" ∨ k = "leechers" ∨ k = "numComments" ∨
     k = "rating" ∨ k = "seeders" ∨ k = "size" then v.isNum
  else if k = "igdbID" ∨ k = "animeID" then v.isStr || v.isNum
  else if k = "new" then v.isBool
  else if k = "tags" then v.isStr || v.isArr
  else false

/-- The fields of a Torrent, one per known JSON key. -/
inductive TField where
  | addedTimestamp | categoryID | completed | downloadMultiplier
  | commentsDisabled | fid | filename | genres | igdbID | animeID
  | imdbID | leechers | name | new | numComments | rating | seeders
  | size | tags | tvmazeID | uploader
  deriving Repr, DecidableEq

/-- The JSON key of a field. -/
def TField.key : TField → String
  | .addedTimestamp => "addedTimestamp"
  | .categoryID => "categoryID"
  | .completed => "completed"
  | .downloadMultiplier => "download_multiplier"
  | .commentsDisabled => "commentsDisabled"
  | .fid => "fid"
  | .filename => "filename"
  | .genres => "genres"
  | .igdbID => "igdbID"
  | .animeID => "animeID"
  | .imdbID => "imdbID"
  | .leechers => "leechers"
  | .name => "name"
  | .new => "new"
  | .numComments => "numComments"
  | .rating => "rating"
  | .seeders => "seeders"
  | .size => "size"
  | .tags => "tags"
  | .tvmazeID => "tvmazeID"
  | .uploader => "uploader"

/-- A field value, for comparing one field across torrents. -/
inductive FVal where
  | i : Int → FVal
  | s : String → FVal
  | b : Bool → FVal
  | q : Rat → FVal
  | ls : List String → FVal
  | dt : DateTime → FVal
  deriving Repr, DecidableEq

/-- Read one field of a torrent. -/
def tget : TField → Torrent → FVal
  | .addedTimestamp, t => .dt t.AddedTimestamp
  | .categoryID, t => .i t.CategoryID
  | .completed, t => .i t.Completed
  | .downloadMultiplier, t => .i t.DownloadMultiplier
  | .commentsDisabled, t => .i t.CommentsDisabled
  | .fid, t => .i t.ID
  | .filename, t => .s t.Filename
  | .genres, t => .ls t.Genres
  | .igdbID, t => .s t.IgdbID
  | .animeID, t => .s t.AnimeID
  | .imdbID, t => .s t.ImdbID
  | .leechers, t => .i t.Leechers
  | .name, t => .s t.Name
  | .new, t => .b t.New
  | .numComments, t => .i t.NumComments
  | .rating, t => .q t.Rating
  | .seeders, t => .i t.Seeders
  | .size, t => .i t.Size
  | .tags, t => .ls t.Tags
  | .tvmazeID, t => .s t.TvmazeID
  | .uploader, t => .s t.Uploader

/-!
Concrete fetch oracles for the cursor claims.
-/

/-- A result set of 120 records served at 50 per page as three pages of
50, 50 and 20 records. -/
def threePages : Int → Except String SearchResponse := fun pg =>
  if pg = 1 then .ok { NumFound := 120, PerPage := 50, TorrentList := List.replicate 50 {} }
  else if pg = 2 then .ok { NumFound := 120, PerPage := 50, TorrentList := List.replicate 50 {} }
  else if pg = 3 then .ok { NumFound := 120, PerPage := 50, TorrentList := List.replicate 20 {} }
  else .error "no such page"

/-- A server whose first page is empty while it still reports 120 results
found at 50 per page (the spec allows numFound to be stale or approximate). -/
def emptyFirstStale : Int → Except String SearchResponse := fun pg =>
  if pg = 1 then .ok { NumFound := 120, PerPage := 50, TorrentList := [] }
  else .ok { NumFound := 120, PerPage := 50, TorrentList := List.replicate 50 {} }

/-- A first page of 50 records followed by a failing fetch. -/
def failSecond : Int → Except String SearchResponse := fun pg =>
  if pg = 1 then .ok { NumFound := 120, PerPage := 50, TorrentList := List.replicate 50 {} }
  else .error "fetch failed"

/-- A server with an empty result set: zero records found. -/
def emptyServer : Int → Except String SearchResponse := fun _ =>
  .ok { NumFound := 0, PerPage := 50, TorrentList := [] }

/-- The cursor state at the last record of the first failSecond page: page
1 loaded, index on the last of its 50 records. -/
def cur1 : CState :=
  { req := { Query := [], Page := 1 }, p := 0, i := 49,
    res := some { NumFound := 120, PerPage := 50, TorrentList := List.replicate 50 {} },
    err := none }

/-- The cursor state after the failed second fetch of failSecond. -/
def errState : CState :=
  { req := { Query := [], Page := 2 }, p := 1, i := 0, res := none,
    err := some "fetch failed" }

/-- The cursor state right after a successful first fetch of an empty page
for the Search of the given query. -/
def emptyFetched (q : List String) (r : SearchResponse) : CState :=
  { req := { Query := q, Page := 1 }, p := 0, i := 0, res := some r, err := none }

/-!
Lemmas about the Torrent decoder.
-/

/-- A known key is one of the twenty one field keys. -/
theorem knownKey_cases (k : String) (hk : knownKey k = true) :
    k = "addedTimestamp" ∨ k = "categoryID" ∨ k = "completed" ∨
    k = "download_multiplier" ∨ k = "commentsDisabled" ∨ k = "fid" ∨
    k = "filename" ∨ k = "genres" ∨ k = "igdbID" ∨ k = "animeID" ∨
    k = "imdbID" ∨ k = "leechers" ∨ k = "name" ∨ k = "new" ∨
    k = "numComments" ∨ k = "rating" ∨ k = "seeders" ∨ k = "size" ∨
    k = "tags" ∨ k = "tvmazeID" ∨ k = "uploader" := by
  have hm := of_decide_eq_true hk
  simpa [knownKeys] using hm

/-- Errors of the tags element scan name the tags field. -/
theorem collectStrings_error_key (xs : List JValue) :
    ∀ (i : Nat) (e : DecodeErr), collectStrings xs i = .error e → e.key = "tags" := by
  induction xs with
  | nil => intro i e h; exact absurd h (by simp [collectStrings])
  | cons x rest ih =>
    intro i e h
    cases x <;> simp only [collectStrings] at h
    case str s =>
      cases hrec : collectStrings rest (i + 1) <;> rw [hrec] at h
      · cases h
        exact ih _ _ hrec
      · cases h
    all_goals (cases h; rfl)

/-- An unknown key always produces the unknown field error. -/
theorem decodeField1_unknown (k : String) (v : JValue) (hk : knownKey k = false) :
    decodeField1 k v = .error (.unknownField k) := by
  have hm := of_decide_eq_false hk
  simp only [knownKeys, List.mem_cons, List.mem_singleton] at hm
  push_neg at hm
  obtain ⟨n1, n2, n3, n4, n5, n6, n7, n8, n9, n10, n11, n12, n13, n14, n15,
    n16, n17, n18, n19, n20, n21, -⟩ := hm
  simp only [decodeField1, if_neg n1, if_neg n2, if_neg n3, if_neg n4, if_neg n5,
    if_neg n6, if_neg n7, if_neg n8, if_neg n9, if_neg n10, if_neg n11, if_neg n12,
    if_neg n13, if_neg n14, if_neg n15, if_neg n16, if_neg n17, if_neg n18,
    if_neg n19, if_neg n20, if_neg n21]

/-- Every error of the per key decoder names the key it was raised on. -/
theorem decodeField1_error_key (k : String) (v : JValue) (e : DecodeErr)
    (h : decodeField1 k v = .error e) : e.key = k := by
  by_cases hk : knownKey k = true
  · rcases knownKey_cases k hk with rfl | rfl | rfl | rfl | rfl | rfl | rfl | rfl |
      rfl | rfl | rfl | rfl | rfl | rfl | rfl | rfl | rfl | rfl | rfl | rfl | rfl
    all_goals (simp only [decodeField1] at h; simp at h)
    all_goals (repeat' split at h)
    all_goals try (injection h with h2; subst h2; apply collectStrings_error_key; assumption)
    all_goals (try (injection h with h2; subst h2; rfl))
    all_goals (exact Except.noConfusion h)
  · rw [decodeField1_unknown k v (by simpa using hk)] at h
    injection h with h2
    subst h2
    rfl

/-- A known key whose value has a JSON type outside its documented shapes
always produces an error naming that key. -/
theorem decodeField1_badtype (k : String) (v : JValue) (hk : knownKey k = true)
    (hv : typeOK k v = false) : ∃ e, decodeField1 k v = .error e ∧ e.key = k := by
  rcases knownKey_cases k hk with rfl | rfl | rfl | rfl | rfl | rfl | rfl | rfl |
    rfl | rfl | rfl | rfl | rfl | rfl | rfl | rfl | rfl | rfl | rfl | rfl | rfl
  all_goals (cases v)
  all_goals (try (exact ⟨_, rfl, rfl⟩))
  all_goals (revert hv; simp [typeOK, JValue.isStr, JValue.isNum, JValue.isBool, JValue.isArr])

/-- The decoding loop reports an error whose named key is a key of the
object, bound to a value that itself fails to decode. -/
theorem decodeFields_error_mem (m : List (String × JValue)) (t : Torrent) (e : DecodeErr)
    (h : decodeFields t m = .error e) :
    ∃ v, (e.key, v) ∈ m ∧ decodeField1 e.key v = .error e := by
  induction m generalizing t with
  | nil => exact absurd h (by simp [decodeFields])
  | cons p rest ih =>
    obtain ⟨k, v⟩ := p
    simp only [decodeFields] at h
    cases hd : decodeField1 k v <;> rw [hd] at h
    · cases h
      have hkey := decodeField1_error_key k v e hd
      exact ⟨v, by rw [hkey]; exact List.mem_cons_self _ _, by rw [hkey]; exact hd⟩
    · obtain ⟨v', hmem, hfail⟩ := ih _ h
      exact ⟨v', List.mem_cons_of_mem _ hmem, hfail⟩

/-- If some entry of the object does not decode, the whole loop errors. -/
theorem decodeFields_error_of_bad (m : List (String × JValue)) (k : String) (v : JValue)
    (hm : (k, v) ∈ m) (hbad : ∀ f, decodeField1 k v ≠ .ok f) :
    ∀ t, ∃ e, decodeFields t m = .error e := by
  induction m with
  | nil => cases hm
  | cons p rest ih =>
    intro t
    obtain ⟨k', v'⟩ := p
    simp only [decodeFields]
    cases hd : decodeField1 k' v'
    · exact ⟨_, rfl⟩
    · rcases List.mem_cons.mp hm with heq | htail
      · cases heq
        exact absurd hd (hbad _)
      · exact ih htail _

/-- A successful per key update touches no field other than the one of its
key. -/
theorem decodeField1_ok_pres (k : String) (v : JValue) (f : Torrent → Torrent)
    (h : decodeField1 k v = .ok f) (fld : TField) (hne : fld.key ≠ k) (t : Torrent) :
    tget fld (f t) = tget fld t := by
  by_cases hk : knownKey k = true
  · rcases knownKey_cases k hk with rfl | rfl | rfl | rfl | rfl | rfl | rfl | rfl |
      rfl | rfl | rfl | rfl | rfl | rfl | rfl | rfl | rfl | rfl | rfl | rfl | rfl
    all_goals (simp only [decodeField1] at h; simp at h)
    all_goals (repeat' split at h)
    all_goals (try (exact Except.noConfusion h))
    all_goals (injection h with h2; subst h2)
    all_goals (cases fld)
    all_goals (first | rfl | (exact absurd rfl hne))
  · rw [decodeField1_unknown k v (by simpa using hk)] at h
    exact Except.noConfusion h

/-- A field whose key is absent from the object keeps the value it had
before the decoding loop. -/
theorem decodeFields_pres (m : List (String × JValue)) (t t' : Torrent)
    (h : decodeFields t m = .ok t') (fld : TField)
    (hk : fld.key ∉ m.map Prod.fst) : tget fld t' = tget fld t := by
  induction m generalizing t with
  | nil =>
    simp only [decodeFields] at h
    injection h with h2
    subst h2
    rfl
  | cons p rest ih =>
    obtain ⟨k, v⟩ := p
    simp only [decodeFields] at h
    simp only [List.map_cons, List.mem_cons] at hk
    push_neg at hk
    cases hd : decodeField1 k v <;> rw [hd] at h
    · exact Except.noConfusion h
    · rename_i f
      calc tget fld t' = tget fld (f t) := ih (f t) h hk.2
        _ = tget fld t := decodeField1_ok_pres k v f hd fld hk.1 t

/-!
The claims about the Torrent decoder.
-/

/-- Claim C3, counterexample: the Torrent decoder REJECTS an addedTimestamp
given as a unix epoch seconds integer in a quoted JSON string, contrary to
the claim that it succeeds on that shape; that shape is accepted by the
separate Time decoder used for the lastBrowseTime response field. -/
theorem c3_epoch_string_rejected_cex :
    decodeTorrent [("addedTimestamp", .str "1633036800")] =
      .error (.invalidValue "addedTimestamp") ∧
    timeUnmarshal "\"1633036800\"" = .ok (some 1633036800) :=
  ⟨rfl, rfl⟩

/-- Claim C3 (amended): for a JSON object with an addedTimestamp key, the
Torrent decoder succeeds exactly when the value is a string in the fixed
calendar format 2006-01-02 15:04:05, producing the parsed timestamp; a
string of any other content (including quoted unix epoch seconds) fails
with a value error, and a non string value fails with a type error. The
quoted epoch shape belongs to the separate Time decoder. -/
theorem c3_amended_calendar_only :
    (∀ (s : String) (dt : DateTime), parseTimefmt s = some dt →
      decodeTorrent [("addedTimestamp", .str s)] = .ok { AddedTimestamp := dt }) ∧
    (∀ s : String, parseTimefmt s = none →
      decodeTorrent [("addedTimestamp", .str s)] =
        .error (.invalidValue "addedTimestamp")) ∧
    (∀ v : JValue, v.isStr = false →
      decodeTorrent [("addedTimestamp", v)] =
        .error (.invalidType "addedTimestamp")) := by
  refine ⟨?_, ?_, ?_⟩
  · intro s dt h
    simp [decodeTorrent, decodeFields, decodeField1, h]
  · intro s h
    simp [decodeTorrent, decodeFields, decodeField1, h]
  · intro v hv
    cases v <;> simp_all [decodeTorrent, decodeFields, decodeField1, JValue.isStr]

/-- Witness for the amended claim C3 at concrete inputs. -/
theorem c3_amended_calendar_only_witness :
    decodeTorrent [("addedTimestamp", .str "2021-10-01 12:30:45")] =
      .ok { AddedTimestamp := ⟨2021, 10, 1, 12, 30, 45⟩ } ∧
    decodeTorrent [("addedTimestamp", .str "1633036800")] =
      .error (.invalidValue "addedTimestamp") ∧
    decodeTorrent [("addedTimestamp", .num 5)] =
      .error (.invalidType "addedTimestamp") :=
  ⟨c3_amended_calendar_only.1 _ _ rfl,
   c3_amended_calendar_only.2.1 _ rfl,
   c3_amended_calendar_only.2.2 _ rfl⟩

/-- Claim C5: decoding one Torrent object fails with an error naming an
offending field whenever a known field has a JSON type outside its
documented shapes, fails likewise whenever an unknown key appears, and on
success a known field absent from the object keeps its zero value. -/
theorem c5_closed_schema (m : List (String × JValue)) :
    decodeTorrent [] = .ok ({} : Torrent) ∧
    (∀ k v, (k, v) ∈ m → knownKey k = true → typeOK k v = false →
      ∃ e, decodeTorrent m = .error e ∧
        ∃ v', (e.key, v') ∈ m ∧ decodeField1 e.key v' = .error e) ∧
    (∀ k v, (k, v) ∈ m → knownKey k = false →
      ∃ e, decodeTorrent m = .error e ∧
        ∃ v', (e.key, v') ∈ m ∧ decodeField1 e.key v' = .error e) ∧
    (∀ (t : Torrent) (fld : TField), decodeTorrent m = .ok t →
      TField.key fld ∉ m.map Prod.fst → tget fld t = tget fld ({} : Torrent)) := by
  refine ⟨rfl, ?_, ?_, ?_⟩
  · intro k v hm hk hv
    obtain ⟨e0, he0, -⟩ := decodeField1_badtype k v hk hv
    obtain ⟨e, he⟩ :=
      decodeFields_error_of_bad m k v hm (fun f hf => by rw [he0] at hf; cases hf) {}
    obtain ⟨v', hmem, hfail⟩ := decodeFields_error_mem m {} e he
    exact ⟨e, he, v', hmem, hfail⟩
  · intro k v hm hk
    have he0 := decodeField1_unknown k v hk
    obtain ⟨e, he⟩ :=
      decodeFields_error_of_bad m k v hm (fun f hf => by rw [he0] at hf; cases hf) {}
    obtain ⟨v', hmem, hfail⟩ := decodeFields_error_mem m {} e he
    exact ⟨e, he, v', hmem, hfail⟩
  · intro t fld h hk
    exact decodeFields_pres m {} t h fld hk

/-- Witness for claim C5: a wrong typed known field fails, an unknown key
fails, and an absent known field stays at its zero value. -/
theorem c5_closed_schema_witness :
    (∃ e, decodeTorrent [("seeders", .str "x")] = .error e ∧
      ∃ v', (DecodeErr.key e, v') ∈ [("seeders", JValue.str "x")] ∧
        decodeField1 (DecodeErr.key e) v' = .error e) ∧
    (∃ e, decodeTorrent [("wat", .null)] = .error e ∧
      ∃ v', (DecodeErr.key e, v') ∈ [("wat", JValue.null)] ∧
        decodeField1 (DecodeErr.key e) v' = .error e) ∧
    tget .seeders { Name := "n" } = tget .seeders ({} : Torrent) :=
  ⟨(c5_closed_schema [("seeders", .str "x")]).2.1 "seeders" (.str "x")
      (List.mem_cons_self _ _) (by decide) (by decide),
   (c5_closed_schema [("wat", .null)]).2.2.1 "wat" .null
      (List.mem_cons_self _ _) (by decide),
   (c5_closed_schema [("name", .str "n")]).2.2.2 { Name := "n" } .seeders rfl (by decide)⟩

/-- The tags element scan succeeds on an all string array and returns the
strings in order. -/
theorem collectStrings_map_str (ss : List String) :
    ∀ i, collectStrings (ss.map JValue.str) i = .ok ss := by
  induction ss with
  | nil => intro i; rfl
  | cons s rest ih => intro i; simp [collectStrings, ih (i + 1)]

/-- Claim C9: a tags field that is the empty string decodes to an empty tag
list; a tags field that is an array of strings decodes to exactly those
strings in order; a tags value of any JSON type other than string or array
fails with an error. -/
theorem c9_tags_decoding :
    (∃ t, decodeTorrent [("tags", .str "")] = .ok t ∧ t.Tags = []) ∧
    (∀ ss : List String, ∃ t,
      decodeTorrent [("tags", .arr (ss.map JValue.str))] = .ok t ∧ t.Tags = ss) ∧
    (∀ v : JValue, v.isStr = false → v.isArr = false →
      decodeTorrent [("tags", v)] = .error (.invalidType "tags")) := by
  refine ⟨⟨{}, rfl, rfl⟩, ?_, ?_⟩
  · intro ss
    have hc := collectStrings_map_str ss 0
    simp [decodeTorrent, decodeFields, decodeField1, hc]
  · intro v h1 h2
    cases v <;> simp_all [decodeTorrent, decodeFields, decodeField1, JValue.isStr, JValue.isArr]

/-- Witness for claim C9 at concrete inputs. -/
theorem c9_tags_decoding_witness :
    (∃ t, decodeTorrent [("tags", .arr [.str "a", .str "b"])] = .ok t ∧
      t.Tags = ["a", "b"]) ∧
    decodeTorrent [("tags", .null)] = .error (.invalidType "tags") :=
  ⟨c9_tags_decoding.2.1 ["a", "b"], c9_tags_decoding.2.2 .null rfl rfl⟩

/-!
Lemmas about the association list model of Go maps.
-/

/-- Lookup on a cons cell. -/
theorem alookup_cons (a b : String) (t : List (String × String)) (k : String) :
    alookup ((a, b) :: t) k = if k = a then some b else alookup t k := by
  by_cases h : k = a
  · simp [alookup, List.find?, h]
  · simp [alookup, List.find?, h, Ne.symm h]

/-- Lookup after one assignment: the assigned key reads the new value, any
other key is unaffected. -/
theorem alookup_aset (m : List (String × String)) (k v k' : String) :
    alookup (aset m k v) k' = if k' = k then some v else alookup m k' := by
  induction m with
  | nil =>
    by_cases h : k' = k
    · simp [alookup, aset, List.find?, h]
    · simp [alookup, aset, List.find?, h, Ne.symm h]
  | cons p t ih =>
    obtain ⟨a, b⟩ := p
    by_cases h1 : a = k
    · subst h1
      have hset : aset ((a, b) :: t) a v = aset t a v := by
        simp [aset, List.filter_cons]
      rw [hset, ih, alookup_cons]
      by_cases h2 : k' = a <;> simp [h2]
    · have hset : aset ((a, b) :: t) k v = (a, b) :: aset t k v := by
        simp [aset, List.filter_cons, h1]
      rw [hset, alookup_cons, alookup_cons, ih]
      by_cases h2 : k' = a
      · subst h2
        simp [h1]
      · by_cases h3 : k' = k
        · simp [h2, h3]
          exact fun hh => absurd (h3.trans hh) h2
        · simp [h2, h3]

/-- Lookup after folding a pair list through assignments: the last pair
with the key wins, otherwise the original map is read. -/
theorem alookup_foldl_aset (ps : List (String × String)) :
    ∀ (m : List (String × String)) (k : String),
      alookup (ps.foldl (fun m p => aset m p.1 p.2) m) k =
        ((ps.reverse.find? (fun p => p.1 = k)).map Prod.snd).or (alookup m k) := by
  induction ps with
  | nil => intro m k; simp [Option.or]
  | cons p t ih =>
    intro m k
    simp only [List.foldl_cons, List.reverse_cons]
    rw [ih, List.find?_append, alookup_aset]
    by_cases h : p.1 = k
    · have hp : List.find? (fun q => decide (q.1 = k)) [p] = some p := by
        simp [List.find?, h]
      rw [hp]
      cases hf : List.find? (fun q => decide (q.1 = k)) t.reverse with
      | some q => simp [Option.or]
      | none => simp [Option.or, h]
    · have hp : List.find? (fun q => decide (q.1 = k)) [p] = none := by
        simp [List.find?, h]
      rw [hp]
      have h' : ¬k = p.1 := fun hh => h hh.symm
      cases hf : List.find? (fun q => decide (q.1 = k)) t.reverse with
      | some q => simp [Option.or]
      | none => simp [Option.or, h']

/-- With distinct keys, lookup finds exactly the bindings of the list. -/
theorem alookup_eq_some (m : List (String × String)) :
    (m.map Prod.fst).Nodup → ∀ k v : String,
    (alookup m k = some v ↔ (k, v) ∈ m) := by
  induction m with
  | nil => intro _ k v; simp [alookup]
  | cons p t ih =>
    intro hnd k v
    obtain ⟨a, b⟩ := p
    simp only [List.map_cons, List.nodup_cons] at hnd
    rw [alookup_cons]
    by_cases h : k = a
    · rw [if_pos h]
      constructor
      · intro hv
        cases hv
        rw [h]
        exact List.mem_cons_self _ _
      · intro hv
        rcases List.mem_cons.mp hv with heq | hmem
        · cases heq
          rfl
        · exfalso
          apply hnd.1
          rw [← h]
          exact List.mem_map_of_mem Prod.fst hmem
    · rw [if_neg h, ih hnd.2 k v]
      constructor
      · exact fun hm => List.mem_cons_of_mem _ hm
      · intro hv
        rcases List.mem_cons.mp hv with heq | hmem
        · cases heq
          exact absurd rfl h
        · exact hmem

/-- Lookup misses exactly the keys with no binding. -/
theorem alookup_eq_none (m : List (String × String)) (k : String) :
    alookup m k = none ↔ ∀ v, (k, v) ∉ m := by
  induction m with
  | nil => simp [alookup]
  | cons p t ih =>
    obtain ⟨a, b⟩ := p
    rw [alookup_cons]
    by_cases h : k = a
    · rw [if_pos h]
      refine iff_of_false (by simp) (fun hall => hall b ?_)
      rw [h]
      exact List.mem_cons_self _ _
    · rw [if_neg h, ih]
      constructor
      · intro hall v hv
        rcases List.mem_cons.mp hv with heq | hmem
        · cases heq
          exact h rfl
        · exact hall v hmem
      · intro hall v hv
        exact hall v (List.mem_cons_of_mem _ hv)

/-- With distinct keys, lookup is invariant under permutation of the map. -/
theorem alookup_perm (m m' : List (String × String)) (hp : m.Perm m')
    (hnd : (m.map Prod.fst).Nodup) (k : String) :
    alookup m k = alookup m' k := by
  have hnd' : (m'.map Prod.fst).Nodup := ((hp.map Prod.fst).nodup_iff).mp hnd
  cases h : alookup m k with
  | some v =>
    have hm : (k, v) ∈ m := (alookup_eq_some m hnd k v).mp h
    exact ((alookup_eq_some m' hnd' k v).mpr (hp.mem_iff.mp hm)).symm
  | none =>
    symm
    rw [alookup_eq_none]
    intro v hv
    exact (alookup_eq_none m k).mp h v (hp.mem_iff.mpr hv)

/-!
The claims about the builder and the query encoder.
-/

/-- Claim C10: WithFacets panics (the panic modelled as an error carrying
the panic message) exactly on an odd number of arguments; on an even count
it returns normally, the facet map is present, reads of it return the last
pair given for a key and fall back to the prior mapping, and no other field
changes. -/
theorem c10_withfacets_pairs (r : SearchRequest) (fs : List String) :
    (fs.length % 2 ≠ 0 → withFacets r fs = .error "facets must be a multiple of 2") ∧
    (fs.length % 2 = 0 → ∃ r', withFacets r fs = .ok r' ∧ r'.Facets.isSome = true ∧
      (∀ k, alookup (r'.Facets.getD []) k =
        (((pairsOf fs).reverse.find? (fun p => p.1 = k)).map Prod.snd).or
          (alookup (r.Facets.getD []) k)) ∧
      r'.Categories = r.Categories ∧ r'.Query = r.Query ∧ r'.Added = r.Added ∧
      r'.OrderBy = r.OrderBy ∧ r'.Order = r.Order ∧ r'.Page = r.Page) := by
  constructor
  · intro h
    simp [withFacets, h]
  · intro h
    set fm := (pairsOf fs).foldl (fun m p => aset m p.1 p.2) (r.Facets.getD []) with hfm
    refine ⟨{ r with Facets := some fm }, ?_, rfl, ?_, rfl, rfl, rfl, rfl, rfl, rfl⟩
    · simp [withFacets, h, hfm]
    · intro k
      rw [hfm]
      exact alookup_foldl_aset (pairsOf fs) (r.Facets.getD []) k

/-- Witness for claim C10: one odd call panics, one even call stores the
pairs with the later duplicate winning. -/
theorem c10_withfacets_pairs_witness :
    (withFacets (searchReq []) ["size"] = .error "facets must be a multiple of 2") ∧
    (∃ r', withFacets (searchReq []) ["size", "a", "size", "b"] = .ok r' ∧
      r'.Facets.isSome = true ∧
      (∀ k, alookup (r'.Facets.getD []) k =
        (((pairsOf ["size", "a", "size", "b"]).reverse.find?
          (fun p => p.1 = k)).map Prod.snd).or
          (alookup ((searchReq []).Facets.getD []) k)) ∧
      r'.Categories = (searchReq []).Categories ∧ r'.Query = (searchReq []).Query ∧
      r'.Added = (searchReq []).Added ∧ r'.OrderBy = (searchReq []).OrderBy ∧
      r'.Order = (searchReq []).Order ∧ r'.Page = (searchReq []).Page) :=
  ⟨(c10_withfacets_pairs (searchReq []) ["size"]).1 (by decide),
   (c10_withfacets_pairs (searchReq []) ["size", "a", "size", "b"]).2 (by decide)⟩

/-- Claim C6: for a nonempty facet mapping, the facets segment holds
entries only for the five recognized names in their fixed order regardless
of insertion order, each rendered as name %3A value joined with
underscores, the value escaped by replacing every open bracket with %255B,
every close bracket with %255D and every space with %2520, all other
characters unchanged. -/
theorem c6_facet_rendering (fm fm' : List (String × String)) (_hne : fm ≠ [])
    (hp : fm.Perm fm') (hnd : (fm.map Prod.fst).Nodup) :
    facetSeg fm = facetSeg fm' ∧
    facetSeg fm = String.intercalate "_" (facetNames.filterMap (fun k =>
      (alookup fm k).map (fun v => k ++ "%3A" ++ String.join (v.data.map (fun c =>
        if c = '[' then "%255B" else if c = ']' then "%255D"
        else if c = ' ' then "%2520" else String.singleton c))))) ∧
    (∀ (name v : String), name ∉ facetNames →
      facetSeg ((name, v) :: fm) = facetSeg fm) := by
  have hchar : ∀ c : Char,
      (if c = '[' then "%255B" else if c = ' ' then "%2520"
       else if c = ']' then "%255D" else String.singleton c) =
      (if c = '[' then "%255B" else if c = ']' then "%255D"
       else if c = ' ' then "%2520" else String.singleton c) := by
    intro c
    by_cases h1 : c = '[' <;> by_cases h2 : c = ' ' <;> by_cases h3 : c = ']' <;> simp_all
  refine ⟨?_, ?_, ?_⟩
  · exact congrArg (String.intercalate "_") (List.filterMap_congr (fun a _ => by
      rw [alookup_perm fm fm' hp hnd a]))
  · refine congrArg (String.intercalate "_") (List.filterMap_congr (fun a _ => ?_))
    refine Option.map_congr (fun v _ => ?_)
    simp only [escaper]
    rw [funext hchar]
  · intro name v hname
    refine congrArg (String.intercalate "_") (List.filterMap_congr (fun a ha => ?_))
    rw [alookup_cons, if_neg (fun hh : a = name => hname (hh ▸ ha))]

/-- Witness for claim C6 at a concrete two entry facet mapping given in the
opposite of the emitted order. -/
theorem c6_facet_rendering_witness :
    ([("size", "[0 TO 50]"), ("added", "a b")] : List (String × String)).Perm
      [("added", "a b"), ("size", "[0 TO 50]")] ∧
    (facetSeg [("size", "[0 TO 50]"), ("added", "a b")] =
      facetSeg [("added", "a b"), ("size", "[0 TO 50]")] ∧
    facetSeg [("size", "[0 TO 50]"), ("added", "a b")] =
      String.intercalate "_" (facetNames.filterMap (fun k =>
        (alookup [("size", "[0 TO 50]"), ("added", "a b")] k).map (fun v =>
          k ++ "%3A" ++ String.join (v.data.map (fun c =>
            if c = '[' then "%255B" else if c = ']' then "%255D"
            else if c = ' ' then "%2520" else String.singleton c))))) ∧
    (∀ (name v : String), name ∉ facetNames →
      facetSeg ((name, v) :: [("size", "[0 TO 50]"), ("added", "a b")]) =
        facetSeg [("size", "[0 TO 50]"), ("added", "a b")])) :=
  ⟨by decide, c6_facet_rendering _ _ (by decide) (by decide) (by decide)⟩

/-- Claim C4, counterexample: Search().WithFacets() leaves a present but
empty facet mapping, and the encoder then emits an empty facets segment
instead of omitting it; the claim that a segment with an empty facet
mapping is omitted entirely fails on this input. -/
theorem c4_empty_facet_map_cex :
    withFacets (searchReq []) [] =
      .ok { Query := [], Facets := some [], Page := 1 } ∧
    encodePath { Query := [], Facets := some [], Page := 1 } = "/facets//page/1" ∧
    specPathClaim { Query := [], Facets := some [], Page := 1 } = "/page/1" ∧
    encodePath { Query := [], Facets := some [], Page := 1 } ≠
      specPathClaim { Query := [], Facets := some [], Page := 1 } := by
  refine ⟨rfl, rfl, rfl, ?_⟩
  decide

/-- Claim C4 (amended): the encoded path is the seven segments in the fixed
order categories, facets, query, added, orderby, order, page, each omitted
when its underlying value is empty or zero, EXCEPT that the facets segment
is omitted exactly when the facet mapping is nil: a present but empty
mapping still emits an empty facets segment. -/
theorem c4_amended_path_shape (r : SearchRequest) : encodePath r = specPathNil r := by
  obtain ⟨cs, fc, qs, ad, ob, od, pg⟩ := r
  simp only [encodePath, specPathNil, segCategories, segFacetsNil, segQuery,
    segAdded, segOrderBy, segOrder, segPage]
  refine congrArg₂ (· ++ ·) (congrArg₂ (· ++ ·) (congrArg₂ (· ++ ·) (congrArg₂ (· ++ ·)
    (congrArg₂ (· ++ ·) (congrArg₂ (· ++ ·) ?_ ?_) ?_) ?_) ?_) ?_) ?_
  · by_cases h : cs = [] <;> simp [h, optSeg, List.length_eq_zero]
  · cases fc <;> simp [optSeg]
  · by_cases h : qs = [] <;> simp [h, optSeg, List.length_eq_zero]
  · by_cases h : ad = "" <;> simp [h, optSeg]
  · by_cases h : ob = "" <;> simp [h, optSeg]
  · by_cases h : od = "" <;> simp [h, optSeg]
  · by_cases h : pg = 0 <;> simp [h, optSeg]

/-!
Lemmas and claims about the pagination cursor.
-/

/-- A Next call from a state whose error is set returns false at once,
changes nothing and issues no fetch. -/
theorem nextStep_err (f : Int → Except String SearchResponse) (s : CState)
    (h : s.err.isSome = true) : nextStep f s = (false, s, 0) := by
  simp [nextStep, h]

/-- Iterating from a state on which one Next call is a no op returning
false keeps returning false, never fetches and never moves. -/
theorem runNext_const (f : Int → Except String SearchResponse) (s : CState)
    (h : nextStep f s = (false, s, 0)) :
    ∀ n, runNext f n s = (s, List.replicate n false, 0) := by
  intro n
  induction n with
  | zero => rfl
  | succ n ih => simp [runNext, h, ih, List.replicate_succ]

/-- Claim C1, code bug evidence: for a result set of 120 records served as
three pages of 50, 50 and 20 at perPage 50, the cursor started by Search
yields only 100 records (calls 1 to 100), issues only 2 fetches, and
returns false from call 101 on without fetching the third page: WithPage
has a pointer receiver and mutates req.Page inside Next, so the exhaustion
check (page + p) * perPage at call 101 computes (2 + 1) * 50 = 150 which
is at least 120, and the last 20 records are dropped. -/
theorem c1_cursor_drops_last_page :
    (runNext threePages 102 (searchInit [])).2 =
      (List.replicate 100 true ++ [false, false], 2) := by
  rfl

/-- Claim C2, code bug evidence: every builder method of src/tlapi.go has a
pointer receiver and assigns the field on the receiver itself, returning
the receiver; after WithPage the receiver request holds the new page, so
the receiver is not left unchanged and no independent copy exists. -/
theorem c2_builders_mutate_receiver :
    (searchReq ["a"]).Page = 1 ∧
    (withPage (searchReq ["a"]) 2).Page = 2 ∧
    withPage (searchReq ["a"]) 2 ≠ searchReq ["a"] ∧
    (searchReq ["a"]).Categories = [] ∧
    (withCategories (searchReq ["a"]) [36]).Categories = [36] ∧
    withCategories (searchReq ["a"]) [36] ≠ searchReq ["a"] := by
  refine ⟨rfl, rfl, ?_, rfl, rfl, ?_⟩ <;> decide

/-- Claim C7: when a Next call issues a fetch and the fetch fails, the call
returns false and leaves the error set to that failure; and from any state
whose error is set, every further Next call returns false immediately, the
state never changes, and no fetch is ever issued again. -/
theorem c7_error_sticky :
    (∀ (f : Int → Except String SearchResponse) (s : CState) (e : String),
      s.err = none → (nextStep f s).2.2 = 1 → f (fetchPage s) = .error e →
      (nextStep f s).1 = false ∧ (nextStep f s).2.1.err = some e) ∧
    (∀ (f : Int → Except String SearchResponse) (s : CState) (e : String) (n : Nat),
      s.err = some e → runNext f n s = (s, List.replicate n false, 0)) := by
  constructor
  · intro f s e h1 h2 h3
    simp only [fetchPage] at h3
    cases hres : s.res with
    | none => simp [nextStep, h1, hres, h3]
    | some r =>
      by_cases hi : s.i < (r.TorrentList.length : Int) - 1
      · simp [nextStep, h1, hres, hi] at h2
      · by_cases hx : r.NumFound ≤
            ((if s.req.Page = 0 then 1 else s.req.Page) + s.p) * r.PerPage
        · simp [nextStep, h1, hres, hi, hx] at h2
        · simp [nextStep, h1, hres, hi, hx, h3]
  · intro f s e n hs
    exact runNext_const f s (nextStep_err f s (by simp [hs])) n

/-- Witness for claim C7: with a first page of 50 records and a failing
second fetch, the advance at the page boundary returns false and records
the error, and three further advances from the errored state return false
with zero fetches. -/
theorem c7_error_sticky_witness :
    ((nextStep failSecond cur1).2.2 = 1 ∧
     failSecond (fetchPage cur1) = .error "fetch failed" ∧
     (nextStep failSecond cur1).1 = false ∧
     (nextStep failSecond cur1).2.1.err = some "fetch failed") ∧
    (errState.err = some "fetch failed" ∧
     runNext failSecond 3 errState = (errState, List.replicate 3 false, 0)) :=
  ⟨⟨rfl, rfl,
    (c7_error_sticky.1 failSecond cur1 "fetch failed" rfl rfl rfl).1,
    (c7_error_sticky.1 failSecond cur1 "fetch failed" rfl rfl rfl).2⟩,
   rfl, c7_error_sticky.2 failSecond errState "fetch failed" 3 rfl⟩

/-- Claim C8, counterexample: a successful first fetch with zero records
but a stale numFound of 120 at perPage 50 (the spec allows numFound to be
stale or approximate) does NOT exhaust the cursor: the first advance
returns false, but the second advance issues another fetch (two fetches in
total) and even returns true when page 2 is nonempty, contradicting the
claimed transition to a terminal exhausted state with no further fetches. -/
theorem c8_stale_numfound_cex :
    (runNext emptyFirstStale 2 (searchInit [])).2 = ([false, true], 2) := by
  rfl

/-- Claim C8 (amended): if the first fetch succeeds with zero records AND
the reported numFound is at most perPage (in particular for a genuinely
empty result set, where numFound is zero), the very first advance returns
false and every later advance returns false without issuing any further
fetch. -/
theorem c8_amended_empty_first_page
    (f : Int → Except String SearchResponse) (r : SearchResponse)
    (q : List String) (n : Nat) (hf : f 1 = .ok r) (hl : r.TorrentList = [])
    (hn : r.NumFound ≤ r.PerPage) :
    runNext f (n + 1) (searchInit q) =
      (emptyFetched q r, List.replicate (n + 1) false, 1) := by
  have hstep1 : nextStep f (searchInit q) = (false, emptyFetched q r, 1) := by
    simp [nextStep, searchInit, searchReq, emptyFetched, hf, hl]
  have hstep2 : nextStep f (emptyFetched q r) = (false, emptyFetched q r, 0) := by
    simp [nextStep, emptyFetched, hl, hn]
  simp [runNext, hstep1, runNext_const f _ hstep2 n, List.replicate_succ]

/-- Witness for the amended claim C8: a server reporting zero records found
yields false on every advance with exactly one fetch. -/
theorem c8_amended_empty_first_page_witness :
    emptyServer 1 = .ok { NumFound := 0, PerPage := 50, TorrentList := [] } ∧
    runNext emptyServer 3 (searchInit []) =
      (emptyFetched [] { NumFound := 0, PerPage := 50, TorrentList := [] },
        List.replicate 3 false, 1) :=
  ⟨rfl, c8_amended_empty_first_page emptyServer _ [] 2 rfl rfl (by decide)⟩

end Tlapi
